import Mathlib

/-!
Verification development for the watermark `Encoder` module
(`src/model/encoder.py` of the ViT transformer watermarking scheme).

The encoder is shallowly embedded: a tensor is a shape together with a
row-major index-to-value map over ℚ, layers are explicit weight records with
executable application functions returning `Option Tensor` (failure models
the PyTorch runtime errors for shape/device mismatches), and the constructor
is a function from the configuration to an allocation trace together with
either a constructed encoder or the raised error.
-/

namespace WatermarkEncoder

/-- Ascending list `[s, s+1, ..., s+n-1]`. -/
def rangeAsc : Nat → Nat → List Nat
  | _, 0 => []
  | s, n + 1 => s :: rangeAsc (s + 1) n

/-- Finite sum `f 0 + ... + f (n-1)`. -/
def sumRange (n : Nat) (f : Nat → ℚ) : ℚ := ((rangeAsc 0 n).map f).sum

theorem decode_div {a j W : Nat} (hj : j < W) : (a * W + j) / W = a := by
  rw [Nat.mul_comm a W, Nat.mul_add_div (by omega)]
  simp [Nat.div_eq_of_lt hj]

theorem decode_mod {a j W : Nat} (hj : j < W) : (a * W + j) % W = j := by
  rw [Nat.mul_comm a W, Nat.mul_add_mod]
  exact Nat.mod_eq_of_lt hj

/-- Row-major index map for a 2-D tensor with trailing dimension `C`:
index `b*C + c` holds value `f b c`. -/
def mk2 (C : Nat) (f : Nat → Nat → ℚ) : Nat → ℚ :=
  fun n => f (n / C) (n % C)

/-- Row-major index map for a 3-D tensor with trailing dimensions `C, K`. -/
def mk3 (C K : Nat) (f : Nat → Nat → Nat → ℚ) : Nat → ℚ :=
  fun n => f (n / (C * K)) (n / K % C) (n % K)

/-- Row-major index map for a 4-D tensor with trailing dimensions
`C, H, W`. -/
def mk4 (C H W : Nat) (f : Nat → Nat → Nat → Nat → ℚ) : Nat → ℚ :=
  fun n => f (n / (C * H * W)) (n / (H * W) % C) (n / W % H) (n % W)

theorem mk2_val {C : Nat} (f : Nat → Nat → ℚ) {b c : Nat} (hc : c < C) :
    mk2 C f (b * C + c) = f b c := by
  unfold mk2
  rw [decode_div hc, decode_mod hc]

theorem mk3_val {C K : Nat} (f : Nat → Nat → Nat → ℚ) {b c k : Nat}
    (hc : c < C) (hk : k < K) :
    mk3 C K f ((b * C + c) * K + k) = f b c k := by
  unfold mk3
  have hck : c * K + k < C * K := by
    calc c * K + k < c * K + K := by omega
      _ = (c + 1) * K := by ring
      _ ≤ C * K := Nat.mul_le_mul_right K hc
  have hsplit : (b * C + c) * K + k = b * (C * K) + (c * K + k) := by ring
  rw [hsplit, decode_div hck]
  have hback : b * (C * K) + (c * K + k) = (b * C + c) * K + k := by ring
  rw [hback, decode_div hk, decode_mod hc, decode_mod hk]

theorem mk4_val {C H W : Nat} (f : Nat → Nat → Nat → Nat → ℚ) {b c i j : Nat}
    (hc : c < C) (hi : i < H) (hj : j < W) :
    mk4 C H W f (((b * C + c) * H + i) * W + j) = f b c i j := by
  unfold mk4
  have hij : i * W + j < H * W := by
    calc i * W + j < i * W + W := by omega
      _ = (i + 1) * W := by ring
      _ ≤ H * W := Nat.mul_le_mul_right W hi
  have hcij : c * (H * W) + (i * W + j) < C * H * W := by
    have h1 : c * (H * W) + (i * W + j) < c * (H * W) + H * W := by omega
    have h2 : c * (H * W) + H * W = (c + 1) * (H * W) := by ring
    have h3 : (c + 1) * (H * W) ≤ C * (H * W) := Nat.mul_le_mul_right (H * W) hc
    have h4 : C * (H * W) = C * H * W := by ring
    omega
  congr 1
  · have hsplit : ((b * C + c) * H + i) * W + j
        = b * (C * H * W) + (c * (H * W) + (i * W + j)) := by ring
    rw [hsplit, decode_div hcij]
  · have hsplit : ((b * C + c) * H + i) * W + j
        = (b * C + c) * (H * W) + (i * W + j) := by ring
    rw [hsplit, decode_div hij, decode_mod hc]
  · rw [decode_div hj, decode_mod hi]
  · rw [decode_mod hj]

/-- Generators that agree wherever the trailing decoded coordinates are in
range produce the same index map (the leading coordinate of a row-major
decode is never clipped, so it ranges over all of ℕ). -/
theorem mk4_congr {C H W : Nat} {f g : Nat → Nat → Nat → Nat → ℚ}
    (hC : 0 < C) (hH : 0 < H) (hW : 0 < W)
    (h : ∀ b c i j, c < C → i < H → j < W → f b c i j = g b c i j) :
    mk4 C H W f = mk4 C H W g := by
  funext n
  unfold mk4
  exact h _ _ _ _ (Nat.mod_lt _ hC) (Nat.mod_lt _ hH) (Nat.mod_lt _ hW)

/-! ## Tensors -/

/-- Compute device of a tensor (`'cuda'` is the accelerator the dino paths
move tensors to, source lines 74 and 88). -/
inductive Device
  | cpu
  | cuda
deriving DecidableEq

/-- Numeric element type of a tensor. -/
inductive DType
  | float32
  | float64
deriving DecidableEq

/-- A tensor: a shape, a dtype, a device, and a row-major flat
index-to-value map over ℚ (idealised exact arithmetic in place of floating
point; the claims settled here concern shapes, data movement and
weight-(in)dependence, not rounding). -/
structure Tensor where
  shape : List Nat
  dtype : DType
  device : Device
  data : Nat → ℚ

/-- Element `(b, c)` of a 2-D tensor. -/
def Tensor.val2 (t : Tensor) (b c : Nat) : ℚ :=
  match t.shape with
  | [_, C] => t.data (b * C + c)
  | _ => 0

/-- Element `(b, c, i, j)` of a 4-D tensor. -/
def Tensor.val4 (t : Tensor) (b c i j : Nat) : ℚ :=
  match t.shape with
  | [_, C, H, W] => t.data (((b * C + c) * H + i) * W + j)
  | _ => 0

/-- `tensor.to(device)` / `tensor.cpu()`: data and shape unchanged, device
replaced. -/
def Tensor.toDevice (t : Tensor) (d : Device) : Tensor :=
  { t with device := d }

/-- `torch.reshape` (source lines 63, 78, 91): succeeds exactly when the
element counts match; the row-major data is reinterpreted unchanged. -/
def Tensor.reshape (t : Tensor) (s : List Nat) : Option Tensor :=
  if t.shape.prod = s.prod then some { t with shape := s } else none

/-- `torch.cat([t1, t2, t3], dim=1)` on 4-D tensors (source lines 67, 81,
95): requires matching batch, spatial dims, dtype and device; channels are
stacked in argument order. -/
def cat3 (t1 t2 t3 : Tensor) : Option Tensor :=
  match t1.shape, t2.shape, t3.shape with
  | [B1, C1, H1, W1], [B2, C2, H2, W2], [B3, C3, H3, W3] =>
    if B1 = B2 ∧ B1 = B3 ∧ H1 = H2 ∧ H1 = H3 ∧ W1 = W2 ∧ W1 = W3
        ∧ t1.dtype = t2.dtype ∧ t1.dtype = t3.dtype
        ∧ t1.device = t2.device ∧ t1.device = t3.device then
      some { shape := [B1, C1 + C2 + C3, H1, W1], dtype := t1.dtype,
             device := t1.device,
             data := mk4 (C1 + C2 + C3) H1 W1 fun b c i j =>
               if c < C1 then t1.val4 b c i j
               else if c < C1 + C2 then t2.val4 b (c - C1) i j
               else t3.val4 b (c - C1 - C2) i j }
    else none
  | _, _, _ => none

/-- `message.unsqueeze(-1).unsqueeze(-1).expand(-1, -1, H, W)` (source
lines 64, 80, 94): the `(B, L)` message is repeated across every spatial
location of an `H × W` grid. -/
def expandMessage (msg : Tensor) (H W : Nat) : Option Tensor :=
  match msg.shape with
  | [B, L] =>
    some { shape := [B, L, H, W], dtype := msg.dtype, device := msg.device,
           data := mk4 L H W fun b l _ _ => msg.val2 b l }
  | _ => none

/-- `nn.functional.interpolate(t, n)` (source line 92): default nearest
interpolation to spatial size `n × n`; the source pixel of output `(i, j)`
is `(i*H/n, j*W/n)` (floor), as in PyTorch nearest mode. -/
def interpolateNearest (t : Tensor) (n : Nat) : Option Tensor :=
  match t.shape with
  | [B, C, H, W] =>
    some { shape := [B, C, n, n], dtype := t.dtype, device := t.device,
           data := mk4 C n n fun b c i j =>
             t.val4 b c (i * H / n) (j * W / n) }
  | _ => none

/-! ## Layers -/

def reluQ (x : ℚ) : ℚ := max x 0

/-- Weight values of one `ConvBNRelu` block: channel-mixing weights, conv
bias, and the affine normalisation parameters. -/
structure CBRWeights where
  w : Nat → Nat → ℚ
  bias : Nat → ℚ
  gamma : Nat → ℚ
  beta : Nat → ℚ

/-- Modelled from the spec: `model/conv_bn_relu.py` is not under `src/`.
The spec (§2, §4.5) describes `ConvBNRelu` as a convolution + normalisation
+ activation block that preserves spatial dimensions and maps `cin` input
channels to `cout` output channels.  The kernel footprint is not specified,
so the convolution is modelled as spatial-size-preserving channel mixing
followed by a per-channel affine normalisation and ReLU; it fails exactly
when the input channel count differs from `cin`. -/
structure ConvBNRelu where
  cin : Nat
  cout : Nat
  weights : CBRWeights

def ConvBNRelu.apply (L : ConvBNRelu) (t : Tensor) : Option Tensor :=
  match t.shape with
  | [B, C, H, W] =>
    if C = L.cin then
      some { shape := [B, L.cout, H, W], dtype := t.dtype, device := t.device,
             data := mk4 L.cout H W fun b co i j =>
               reluQ (L.weights.gamma co *
                   (L.weights.bias co +
                     sumRange L.cin fun ci => L.weights.w co ci * t.val4 b ci i j)
                 + L.weights.beta co) }
    else none
  | _ => none

/-- `nn.Conv2d(cin, cout, kernel_size=1)` — the final 1×1 projection
(source line 31). -/
structure Conv1x1 where
  cin : Nat
  cout : Nat
  kernel : Nat
  w : Nat → Nat → ℚ
  bias : Nat → ℚ

def Conv1x1.apply (L : Conv1x1) (t : Tensor) : Option Tensor :=
  match t.shape with
  | [B, C, H, W] =>
    if C = L.cin then
      some { shape := [B, L.cout, H, W], dtype := t.dtype, device := t.device,
             data := mk4 L.cout H W fun b co i j =>
               L.bias co +
                 sumRange L.cin fun ci => L.w co ci * t.val4 b ci i j }
    else none
  | _ => none

/-- `nn.Sequential` of `ConvBNRelu` blocks (source line 30). -/
def applySeq : List ConvBNRelu → Tensor → Option Tensor
  | [], t => some t
  | L :: ls, t => (L.apply t).bind (applySeq ls)

/-- `nn.Linear(in_features, out_features)` (source line 50). -/
structure Linear where
  inFeatures : Nat
  outFeatures : Nat
  w : Nat → Nat → ℚ
  bias : Nat → ℚ

def Linear.apply (l : Linear) (t : Tensor) : Option Tensor :=
  match t.shape with
  | [B, F] =>
    if F = l.inFeatures then
      some { shape := [B, l.outFeatures], dtype := t.dtype, device := t.device,
             data := mk2 l.outFeatures fun b k =>
               l.bias k + sumRange l.inFeatures fun i => l.w k i * t.val2 b i }
    else none
  | _ => none

/-! ## External transformer backbones -/

/-- Abstract weights of the `vit_pytorch` ViT. -/
structure ViTWeights where
  w : Nat → ℚ

/-- Modelled from the spec: the `vit_pytorch.ViT` backbone is an external
library, not repository code.  Construction stores the literal arguments of
source lines 35–43; §4.2 of the spec says it is "a vision-transformer sized
to the configured image resolution" that outputs "a flat vector of length"
`num_classes`, and the library asserts that the image dimensions are
divisible by the patch size.  Its output is modelled as an abstract
weight-and-input-dependent vector of length `numClasses`; per the spec's
determinism caveat (§8), dropout (rate `dropoutRate`) is active in training
mode, consuming one uniform draw per output element from the stream `σ`. -/
structure ViT where
  imageH : Nat
  imageW : Nat
  patchSize : Nat
  numClasses : Nat
  dim : Nat
  depth : Nat
  heads : Nat
  mlpDim : Nat
  dropoutRate : ℚ
  embDropoutRate : ℚ
  weights : ViTWeights

/-- Inverted-scaling dropout factor for one uniform draw `u`. -/
def dropoutScale (p u : ℚ) : ℚ := if u < p then 0 else 1 / (1 - p)

/-- Run the ViT on a batch.  `σ` is the stream of uniform draws backing the
dropout layers and `pos` the current position in it; in training mode the
output is elementwise masked and `B * numClasses` draws are consumed, in
evaluation mode the stream is untouched. -/
def ViT.apply (v : ViT) (training : Bool) (σ : Nat → ℚ) (pos : Nat)
    (t : Tensor) : Option (Tensor × Nat) :=
  match t.shape with
  | [B, 3, H, W] =>
    if H = v.imageH ∧ W = v.imageW then
      some ({ shape := [B, v.numClasses], dtype := t.dtype, device := t.device,
              data := mk2 v.numClasses fun b k =>
                (if training then dropoutScale v.dropoutRate (σ (pos + b * v.numClasses + k)) else 1)
                  * (v.weights.w k * t.val4 b 0 0 0) },
            if training then pos + B * v.numClasses else pos)
    else none
  | _ => none

/-- Modelled from the spec: the `transformers.ViTFeatureExtractor` for
`facebook/dino-vits8` is external.  §4.3/§4.4: it preprocesses each image
"to the format the backbone expects" — spatial size 224×224 with a fixed
per-channel affine normalisation. -/
structure FeatureExtractorM where
  size : Nat
  mean : Nat → ℚ
  std : Nat → ℚ

def FeatureExtractorM.apply (fe : FeatureExtractorM) (t : Tensor) : Option Tensor :=
  match t.shape with
  | [B, 3, H, W] =>
    some { shape := [B, 3, fe.size, fe.size], dtype := t.dtype, device := t.device,
           data := mk4 3 fe.size fe.size fun b c i j =>
             (t.val4 b c (i * H / fe.size) (j * W / fe.size) - fe.mean c) / fe.std c }
  | _ => none

/-- Abstract weights of the pretrained dino backbone. -/
structure DinoWeights where
  pool : Nat → ℚ
  att : Nat → Nat → Nat → ℚ

/-- Modelled from the spec: the `transformers.ViTModel` checkpoint
`facebook/dino-vits8` is external.  §4.3: pooled embedding width 384 (its
`hiddenSize`); §4.4: per-head last-layer attention over `numTokens` tokens
(class token + a 28×28 patch grid), `numHeads` fixed by the architecture.
`outputAttentions` mirrors the `output_attentions` fetch flag, `training`
the train/eval flag. -/
structure DinoBackbone where
  hiddenSize : Nat
  numHeads : Nat
  numTokens : Nat
  outputAttentions : Bool
  training : Bool
  weights : DinoWeights

/-- The backbone's outputs: `pooler_output`, and `attentions[-1]` when
attention output is enabled. -/
structure DinoOutputs where
  poolerOutput : Tensor
  attentions : Option Tensor

/-- Sum of the data entries of batch element `b` (one full slice along the
leading dimension): an abstract summary through which the modelled backbone
outputs depend on their input. -/
def Tensor.batchSum (t : Tensor) (b : Nat) : ℚ :=
  match t.shape with
  | [] => 0
  | _ :: rest => sumRange (rest.prod) fun k => t.data (b * rest.prod + k)

def DinoBackbone.apply (m : DinoBackbone) (pix : Tensor) : Option DinoOutputs :=
  match pix.shape with
  | [B, 3, H, W] =>
    if H = 224 ∧ W = 224 then
      some { poolerOutput :=
               { shape := [B, m.hiddenSize], dtype := pix.dtype, device := pix.device,
                 data := mk2 m.hiddenSize fun b k =>
                   m.weights.pool k * pix.batchSum b },
             attentions :=
               if m.outputAttentions then
                 some { shape := [B, m.numHeads, m.numTokens, m.numTokens],
                        dtype := pix.dtype, device := pix.device,
                        data := mk4 m.numHeads m.numTokens m.numTokens fun b h i j =>
                          m.weights.att h i j * pix.batchSum b }
               else none }
    else none
  | _ => none

/-! ## Configuration, construction, and the encoder -/

/-- The fields of `HiDDenConfiguration` consumed by the encoder (§6). -/
structure HiDDenConfiguration where
  H : Nat
  W : Nat
  encoder_channels : Nat
  encoder_blocks : Nat
  message_length : Nat
  encoder_loss : ℚ
  decoder_blocks : Nat
  encoder_mode : Option String

/-- Errors `Encoder.__init__` can raise: the two `ValueError`s of source
lines 24 and 59, and the patch-divisibility assertion inside the external
`ViT` constructor. -/
inductive PyError
  | valueErrorMissingMode
  | valueErrorInvalidMode (mode : String)
  | assertionError
deriving DecidableEq

/-- One weight-allocation event during construction, recorded in program
order. -/
inductive Alloc
  | convBNRelu (cin cout : Nat)
  | conv2d (cin cout kernel : Nat)
  | vit
  | featureExtractorFetch
  | backboneFetch
  | linear (inF outF : Nat)
deriving DecidableEq

/-- The external hub's response to `from_pretrained('facebook/dino-vits8')`:
the fetched feature extractor and backbone. -/
structure Hub where
  featureExtractor : FeatureExtractorM
  backbone : DinoBackbone

/-- Freshly initialised weights for the modules the constructor builds
(PyTorch draws them from its RNG; here they are supplied explicitly). -/
structure FreshWeights where
  conv : Nat → CBRWeights
  finalW : Nat → Nat → ℚ
  finalB : Nat → ℚ
  afterConcat : CBRWeights
  vit : ViTWeights
  linW : Nat → Nat → ℚ
  linB : Nat → ℚ

/-- The encoder's fields (source lines 14–31 plus the strategy-specific
modules of lines 33–56).  `training` is the `nn.Module` train/eval flag,
`true` after construction. -/
structure Encoder where
  H : Nat
  W : Nat
  conv_channels : Nat
  num_blocks : Nat
  encoder_loss : ℚ
  encoder_mode : Option String
  conv_layers : List ConvBNRelu
  final_layer : Conv1x1
  after_concat_layer : ConvBNRelu
  vit : Option ViT
  feature_extractor : Option FeatureExtractorM
  model : Option DinoBackbone
  linear : Option Linear
  training : Bool

/-- The trunk of source lines 26–30: `ConvBNRelu(3, C)` followed by
`encoder_blocks - 1` blocks `ConvBNRelu(C, C)`. -/
def trunkLayers (cfg : HiDDenConfiguration) (fresh : FreshWeights) : List ConvBNRelu :=
  { cin := 3, cout := cfg.encoder_channels, weights := fresh.conv 0 } ::
    ((rangeAsc 1 (cfg.encoder_blocks - 1)).map fun k =>
      { cin := cfg.encoder_channels, cout := cfg.encoder_channels, weights := fresh.conv k })

/-- Allocation events of the trunk and the final 1×1 conv (source lines
26–31), which the constructor performs before inspecting the strategy
branches. -/
def trunkAllocs (cfg : HiDDenConfiguration) : List Alloc :=
  Alloc.convBNRelu 3 cfg.encoder_channels ::
    ((rangeAsc 1 (cfg.encoder_blocks - 1)).map fun _ =>
      Alloc.convBNRelu cfg.encoder_channels cfg.encoder_channels)
    ++ [Alloc.conv2d cfg.encoder_channels 3 1]

/-- `Encoder.__init__` (source lines 13–59): returns the allocation trace in
program order together with either the constructed encoder or the raised
error.  The missing-mode check precedes all allocations; the
unrecognised-mode check follows the trunk allocations. -/
def Encoder.init (cfg : HiDDenConfiguration) (hub : Hub) (fresh : FreshWeights) :
    List Alloc × Except PyError Encoder :=
  match cfg.encoder_mode with
  | none => ([], .error .valueErrorMissingMode)
  | some mode =>
    let C := cfg.encoder_channels
    let base : Encoder :=
      { H := cfg.H, W := cfg.W, conv_channels := C, num_blocks := cfg.encoder_blocks,
        encoder_loss := cfg.encoder_loss, encoder_mode := some mode,
        conv_layers := trunkLayers cfg fresh,
        final_layer := { cin := C, cout := 3, kernel := 1, w := fresh.finalW, bias := fresh.finalB },
        after_concat_layer := { cin := 0, cout := 0, weights := fresh.afterConcat },
        vit := none, feature_extractor := none, model := none, linear := none,
        training := true }
    if mode = "vit" then
      if cfg.H % 32 = 0 ∧ cfg.W % 32 = 0 then
        (trunkAllocs cfg ++ [.convBNRelu (C + 3 + cfg.message_length) C, .vit],
         .ok { base with
           after_concat_layer :=
             { cin := C + 3 + cfg.message_length, cout := C, weights := fresh.afterConcat },
           vit := some { imageH := cfg.H, imageW := cfg.W, patchSize := 32,
                         numClasses := 128 * 128 * C, dim := 1024,
                         depth := cfg.decoder_blocks / 2, heads := 16,
                         mlpDim := 2048, dropoutRate := 1/10,
                         embDropoutRate := 1/10, weights := fresh.vit } })
      else
        (trunkAllocs cfg ++ [.convBNRelu (C + 3 + cfg.message_length) C],
         .error .assertionError)
    else if mode = "dino-output" then
      (trunkAllocs cfg ++ [.convBNRelu (C + 3 + cfg.message_length) C,
         .featureExtractorFetch, .backboneFetch, .linear 384 (128 * 128 * C)],
       .ok { base with
         after_concat_layer :=
           { cin := C + 3 + cfg.message_length, cout := C, weights := fresh.afterConcat },
         feature_extractor := some hub.featureExtractor,
         model := some { hub.backbone with outputAttentions := false, training := false },
         linear := some { inFeatures := 384, outFeatures := 128 * 128 * C,
                          w := fresh.linW, bias := fresh.linB } })
    else if mode = "dino-attention" then
      (trunkAllocs cfg ++ [.convBNRelu 39 C, .featureExtractorFetch, .backboneFetch],
       .ok { base with
         after_concat_layer := { cin := 39, cout := C, weights := fresh.afterConcat },
         feature_extractor := some hub.featureExtractor,
         model := some { hub.backbone with outputAttentions := true, training := false } })
    else
      (trunkAllocs cfg, .error (.valueErrorInvalidMode mode))

/-! ## Forward passes -/

/-- `attention = outputs.attentions[-1][:, :, 0, 1:]` (source line 90): for
every head, the class-token query row with its class-token entry dropped.
Fails when the query axis is empty (Python index error). -/
def selectClsRow (t : Tensor) : Option Tensor :=
  match t.shape with
  | [B, nh, T1, T2] =>
    if 1 ≤ T1 then
      some { shape := [B, nh, T2 - 1], dtype := t.dtype, device := t.device,
             data := mk3 nh (T2 - 1) fun b h k => t.val4 b h 0 (k + 1) }
    else none
  | _ => none

/-- Source lines 90–92: select the class-token attention row, reshape it to
a 28×28 grid per head, and upsample to 128×128. -/
def attnToSemantic (t : Tensor) : Option Tensor :=
  (selectClsRow t).bind fun a =>
    (a.reshape [a.shape.headD 0, a.shape.tail.headD 0, 28, 28]).bind fun r =>
      interpolateNearest r 128

/-- Lines 63–69 of `Encoder.forward_vit`: reshape the transformer's flat
output into the semantic map, broadcast the message, run the (unused) trunk
encoding, concatenate, fuse and project. -/
def Encoder.vit_fusion (e : Encoder) (image message sem_flat : Tensor) :
    Option Tensor := do
  let sem ← sem_flat.reshape [image.shape.headD 0, e.conv_channels, 128, 128]
  let em ← expandMessage message e.H e.W
  let _encoded ← applySeq e.conv_layers image
  let cc ← cat3 em sem image
  let a ← e.after_concat_layer.apply cc
  e.final_layer.apply a

/-- `Encoder.forward_vit` (source lines 61–70). -/
def Encoder.forward_vit (e : Encoder) (σ : Nat → ℚ) (pos : Nat)
    (image message : Tensor) : Option (Tensor × Nat) := do
  let v ← e.vit
  let r ← v.apply e.training σ pos image
  (e.vit_fusion image message r.1).map fun out => (out, r.2)

/-- `Encoder.forward_dino_output` (source lines 72–84): preprocess the
batch on the CPU, move it to `'cuda'`, run the frozen backbone, project the
pooled output and reshape it into the semantic feature map. -/
def Encoder.forward_dino_output (e : Encoder) (image message : Tensor) :
    Option Tensor := do
  let fe ← e.feature_extractor
  let m ← e.model
  let lin ← e.linear
  let pre ← fe.apply (image.toDevice .cpu)
  let outs ← m.apply (pre.toDevice .cuda)
  let proj ← lin.apply outs.poolerOutput
  let sem ← proj.reshape [image.shape.headD 0, e.conv_channels, 128, 128]
  let em ← expandMessage message e.H e.W
  let cc ← cat3 em sem image
  let a ← e.after_concat_layer.apply cc
  e.final_layer.apply a

/-- `Encoder.forward_dino_attention` (source lines 86–98). -/
def Encoder.forward_dino_attention (e : Encoder) (image message : Tensor) :
    Option Tensor := do
  let fe ← e.feature_extractor
  let m ← e.model
  let pre ← fe.apply (image.toDevice .cpu)
  let outs ← m.apply (pre.toDevice .cuda)
  let attFull ← outs.attentions
  let sem ← attnToSemantic attFull
  let em ← expandMessage message e.H e.W
  let cc ← cat3 em sem image
  let a ← e.after_concat_layer.apply cc
  e.final_layer.apply a

/-- `Encoder.forward` (source lines 100–108): dispatch on the stored
strategy tag; the defensive `else` raise is failure. -/
def Encoder.forward (e : Encoder) (σ : Nat → ℚ) (pos : Nat)
    (image message : Tensor) : Option (Tensor × Nat) :=
  if e.encoder_mode = some "vit" then
    e.forward_vit σ pos image message
  else if e.encoder_mode = some "dino-output" then
    (e.forward_dino_output image message).map fun t => (t, pos)
  else if e.encoder_mode = some "dino-attention" then
    (e.forward_dino_attention image message).map fun t => (t, pos)
  else none

/-! ## Concrete instances for witnesses and counterexamples -/

/-- All-zero fresh weights. -/
def fresh0 : FreshWeights :=
  { conv := fun _ => { w := fun _ _ => 0, bias := fun _ => 0, gamma := fun _ => 0, beta := fun _ => 0 },
    finalW := fun _ _ => 0, finalB := fun _ => 0,
    afterConcat := { w := fun _ _ => 0, bias := fun _ => 0, gamma := fun _ => 0, beta := fun _ => 0 },
    vit := { w := fun _ => 0 }, linW := fun _ _ => 0, linB := fun _ => 0 }

/-- All-one fresh weights (biases zero, normalisation the identity). -/
def fresh1 : FreshWeights :=
  { conv := fun _ => { w := fun _ _ => 1, bias := fun _ => 0, gamma := fun _ => 1, beta := fun _ => 0 },
    finalW := fun _ _ => 1, finalB := fun _ => 0,
    afterConcat := { w := fun _ _ => 1, bias := fun _ => 0, gamma := fun _ => 1, beta := fun _ => 0 },
    vit := { w := fun _ => 1 }, linW := fun _ _ => 1, linB := fun _ => 1 }

/-- A hub response shaped like `facebook/dino-vits8`: hidden width 384,
6 attention heads, 785 tokens (28×28 patches + class token), preprocessing
to 224×224. -/
def hub0 : Hub :=
  { featureExtractor := { size := 224, mean := fun _ => 0, std := fun _ => 1 },
    backbone := { hiddenSize := 384, numHeads := 6, numTokens := 785,
                  outputAttentions := false, training := true,
                  weights := { pool := fun _ => 0, att := fun _ _ _ => 0 } } }

def defaultEncoder : Encoder :=
  { H := 0, W := 0, conv_channels := 0, num_blocks := 0, encoder_loss := 0,
    encoder_mode := none, conv_layers := [],
    final_layer := { cin := 0, cout := 0, kernel := 0, w := fun _ _ => 0, bias := fun _ => 0 },
    after_concat_layer :=
      { cin := 0, cout := 0,
        weights := { w := fun _ _ => 0, bias := fun _ => 0, gamma := fun _ => 0, beta := fun _ => 0 } },
    vit := none, feature_extractor := none, model := none, linear := none,
    training := true }

def getOk (x : Except PyError Encoder) : Encoder :=
  match x with
  | .ok e => e
  | .error _ => defaultEncoder

/-- Strategy-A configuration at the intended working resolution. -/
def cfg128 : HiDDenConfiguration :=
  { H := 128, W := 128, encoder_channels := 1, encoder_blocks := 1,
    message_length := 1, encoder_loss := 1, decoder_blocks := 2,
    encoder_mode := some "vit" }

/-- Strategy-A configuration at resolution 32 (divisible by the patch size
but different from 128). -/
def cfg32 : HiDDenConfiguration :=
  { cfg128 with H := 32, W := 32 }

def cfgFoo : HiDDenConfiguration :=
  { cfg128 with encoder_mode := some "foo" }

def cfgNone : HiDDenConfiguration :=
  { cfg128 with encoder_mode := none }

/-- Zero configured trunk blocks. -/
def cfgB0 : HiDDenConfiguration :=
  { cfg128 with encoder_blocks := 0 }

/-- Strategy-C configuration with the 30-value message of the spec's
end-to-end scenario. -/
def cfgDA : HiDDenConfiguration :=
  { cfg128 with message_length := 30, encoder_mode := some "dino-attention" }

def E128 : Encoder := getOk (Encoder.init cfg128 hub0 fresh0).2

def E5 : Encoder := getOk (Encoder.init cfg128 hub0 fresh1).2

def EDA : Encoder := getOk (Encoder.init cfgDA hub0 fresh0).2

def img128 : Tensor :=
  { shape := [1, 3, 128, 128], dtype := .float32, device := .cpu, data := fun _ => 1 }

def msg128 : Tensor :=
  { shape := [1, 1], dtype := .float32, device := .cpu, data := fun _ => 1 }

def img32 : Tensor :=
  { shape := [1, 3, 32, 32], dtype := .float32, device := .cpu, data := fun _ => 1 }

def imgDA : Tensor :=
  { shape := [1, 3, 128, 128], dtype := .float32, device := .cuda, data := fun _ => 1 }

def msgDA : Tensor :=
  { shape := [1, 30], dtype := .float32, device := .cuda, data := fun _ => 1 }

/-- A constant dropout stream. -/
def sigmaHalf : Nat → ℚ := fun _ => 1/2

/-- A dropout stream whose first draw falls below the rate 1/10 and whose
later draws do not: the first forward call masks ViT output 0, a second
call does not. -/
def sigmaDrop : Nat → ℚ := fun n => if n = 0 then 0 else 1

/-- First training-mode forward call on `E5`. -/
def run1 : Option (Tensor × Nat) := E5.forward sigmaDrop 0 img128 msg128

/-- Second training-mode forward call on `E5`, resuming at the stream
position the first call returned. -/
def run2 : Option (Tensor × Nat) :=
  run1.bind fun r => E5.forward sigmaDrop r.2 img128 msg128

/-! ## Shape and metadata facts about the operations -/

theorem reshape_some {t : Tensor} {s : List Nat} {u : Tensor}
    (h : t.reshape s = some u) :
    u.shape = s ∧ u.dtype = t.dtype ∧ u.device = t.device ∧ u.data = t.data
      ∧ t.shape.prod = s.prod := by
  unfold Tensor.reshape at h
  split at h
  · cases h
    exact ⟨rfl, rfl, rfl, rfl, by assumption⟩
  · cases h

theorem expandMessage_some {msg : Tensor} {H W : Nat} {em : Tensor}
    (h : expandMessage msg H W = some em) :
    ∃ B L, msg.shape = [B, L] ∧ em.shape = [B, L, H, W]
      ∧ em.dtype = msg.dtype ∧ em.device = msg.device := by
  unfold expandMessage at h
  split at h
  · rename_i B L heq
    cases h
    exact ⟨B, L, heq, rfl, rfl, rfl⟩
  · cases h

theorem cat3_some {t1 t2 t3 u : Tensor} (h : cat3 t1 t2 t3 = some u) :
    ∃ B C1 C2 C3 H W, t1.shape = [B, C1, H, W] ∧ t2.shape = [B, C2, H, W]
      ∧ t3.shape = [B, C3, H, W] ∧ u.shape = [B, C1 + C2 + C3, H, W]
      ∧ u.dtype = t1.dtype ∧ u.device = t1.device
      ∧ t2.dtype = t1.dtype ∧ t3.dtype = t1.dtype
      ∧ t2.device = t1.device ∧ t3.device = t1.device := by
  unfold cat3 at h
  split at h
  · rename_i B1 C1 H1 W1 B2 C2 H2 W2 B3 C3 H3 W3 h1 h2 h3
    split at h
    · rename_i hcond
      obtain ⟨hB2, hB3, hH2, hH3, hW2, hW3, hd2, hd3, he2, he3⟩ := hcond
      cases h
      refine ⟨B1, C1, C2, C3, H1, W1, h1, ?_, ?_, rfl, rfl, rfl, hd2.symm, hd3.symm, he2.symm, he3.symm⟩
      · rw [h2, hB2, hH2, hW2]
      · rw [h3, hB3, hH3, hW3]
    · cases h
  · cases h

theorem interpolateNearest_some {t u : Tensor} {n : Nat}
    (h : interpolateNearest t n = some u) :
    ∃ B C H W, t.shape = [B, C, H, W] ∧ u.shape = [B, C, n, n]
      ∧ u.dtype = t.dtype ∧ u.device = t.device := by
  unfold interpolateNearest at h
  split at h
  · rename_i B C H W heq
    cases h
    exact ⟨B, C, H, W, heq, rfl, rfl, rfl⟩
  · cases h

theorem selectClsRow_some {t u : Tensor} (h : selectClsRow t = some u) :
    ∃ B nh T1 T2, t.shape = [B, nh, T1, T2] ∧ 1 ≤ T1
      ∧ u.shape = [B, nh, T2 - 1] ∧ u.dtype = t.dtype ∧ u.device = t.device := by
  unfold selectClsRow at h
  split at h
  · rename_i B nh T1 T2 heq
    split at h
    · cases h
      exact ⟨B, nh, T1, T2, heq, by assumption, rfl, rfl, rfl⟩
    · cases h
  · cases h

theorem ConvBNRelu_apply_some {L : ConvBNRelu} {t u : Tensor}
    (h : L.apply t = some u) :
    ∃ B H W, t.shape = [B, L.cin, H, W] ∧ u.shape = [B, L.cout, H, W]
      ∧ u.dtype = t.dtype ∧ u.device = t.device := by
  unfold ConvBNRelu.apply at h
  split at h
  · rename_i B C H W heq
    split at h
    · rename_i hc
      cases h
      exact ⟨B, H, W, by rw [heq, hc], rfl, rfl, rfl⟩
    · cases h
  · cases h

theorem Conv1x1_apply_some {L : Conv1x1} {t u : Tensor}
    (h : L.apply t = some u) :
    ∃ B H W, t.shape = [B, L.cin, H, W] ∧ u.shape = [B, L.cout, H, W]
      ∧ u.dtype = t.dtype ∧ u.device = t.device := by
  unfold Conv1x1.apply at h
  split at h
  · rename_i B C H W heq
    split at h
    · rename_i hc
      cases h
      exact ⟨B, H, W, by rw [heq, hc], rfl, rfl, rfl⟩
    · cases h
  · cases h

theorem Linear_apply_some {l : Linear} {t u : Tensor}
    (h : l.apply t = some u) :
    ∃ B, t.shape = [B, l.inFeatures] ∧ u.shape = [B, l.outFeatures]
      ∧ u.dtype = t.dtype ∧ u.device = t.device := by
  unfold Linear.apply at h
  split at h
  · rename_i B F heq
    split at h
    · rename_i hF
      cases h
      exact ⟨B, by rw [heq, hF], rfl, rfl, rfl⟩
    · cases h
  · cases h

theorem ViT_apply_some {v : ViT} {training : Bool} {σ : Nat → ℚ} {pos : Nat}
    {t : Tensor} {r : Tensor × Nat} (h : v.apply training σ pos t = some r) :
    ∃ B, t.shape = [B, 3, v.imageH, v.imageW] ∧ r.1.shape = [B, v.numClasses]
      ∧ r.1.dtype = t.dtype ∧ r.1.device = t.device := by
  unfold ViT.apply at h
  split at h
  · rename_i B H W heq
    split at h
    · rename_i hc
      cases h
      exact ⟨B, by rw [heq, hc.1, hc.2], rfl, rfl, rfl⟩
    · cases h
  · cases h

theorem FeatureExtractor_apply_some {fe : FeatureExtractorM} {t u : Tensor}
    (h : fe.apply t = some u) :
    ∃ B H W, t.shape = [B, 3, H, W] ∧ u.shape = [B, 3, fe.size, fe.size]
      ∧ u.dtype = t.dtype ∧ u.device = t.device := by
  unfold FeatureExtractorM.apply at h
  split at h
  · rename_i B H W heq
    cases h
    exact ⟨B, H, W, heq, rfl, rfl, rfl⟩
  · cases h

theorem DinoBackbone_apply_some {m : DinoBackbone} {pix : Tensor}
    {outs : DinoOutputs} (h : m.apply pix = some outs) :
    ∃ B, pix.shape = [B, 3, 224, 224]
      ∧ outs.poolerOutput.shape = [B, m.hiddenSize]
      ∧ outs.poolerOutput.dtype = pix.dtype
      ∧ outs.poolerOutput.device = pix.device
      ∧ (∀ att, outs.attentions = some att →
          att.shape = [B, m.numHeads, m.numTokens, m.numTokens]
            ∧ att.dtype = pix.dtype ∧ att.device = pix.device) := by
  unfold DinoBackbone.apply at h
  split at h
  · rename_i B H W heq
    split at h
    · rename_i hc
      cases h
      refine ⟨B, by rw [heq, hc.1, hc.2], rfl, rfl, rfl, ?_⟩
      intro att hatt
      simp only at hatt
      split at hatt
      · cases hatt
        exact ⟨rfl, rfl, rfl⟩
      · cases hatt
    · cases h
  · cases h

/-- Success facts of the strategy-A forward pass: the concat forces the
working resolution to be 128×128 and equal to the configured `H, W`, and
the output keeps the input's batch, spatial size, dtype and device. -/
theorem forward_vit_props {e : Encoder} {σ : Nat → ℚ} {pos : Nat}
    {img msg : Tensor} {r : Tensor × Nat}
    (h : e.forward_vit σ pos img msg = some r) :
    ∃ B Lm, img.shape = [B, 3, e.H, e.W] ∧ msg.shape = [B, Lm]
      ∧ e.H = 128 ∧ e.W = 128
      ∧ r.1.shape = [B, e.final_layer.cout, e.H, e.W]
      ∧ r.1.dtype = img.dtype ∧ r.1.device = img.device := by
  unfold Encoder.forward_vit at h
  simp only [Option.pure_def, Option.bind_eq_bind, Option.bind_eq_some,
    Option.map_eq_some', Option.some.injEq] at h
  obtain ⟨v, hv, rv, hrv, out, hfus, hfin⟩ := h
  unfold Encoder.vit_fusion at hfus
  simp only [Option.pure_def, Option.bind_eq_bind, Option.bind_eq_some,
    Option.some.injEq] at hfus
  obtain ⟨sem, hsem, em, hem, enc, henc, cc, hcc, a, ha, hout⟩ := hfus
  obtain ⟨B, himg, hrvs, hrvt, hrvd⟩ := ViT_apply_some hrv
  obtain ⟨hsems, hsemt, hsemd, hsemdata, _⟩ := reshape_some hsem
  obtain ⟨B1, Lm, hmsg, hems, hemt, hemd⟩ := expandMessage_some hem
  obtain ⟨B2, C1x, C2x, C3x, Hx, Wx, hc1, hc2, hc3, hccs, hcct, hccd, ht2, ht3, he2, he3⟩ :=
    cat3_some hcc
  obtain ⟨Ba, Ha, Wa, hain, haout, hat, had⟩ := ConvBNRelu_apply_some ha
  obtain ⟨Bf, Hf, Wf, hfin2, hfout, hft, hfd⟩ := Conv1x1_apply_some hout
  rw [hems] at hc1
  rw [hsems] at hc2
  rw [himg] at hc3
  simp only [List.cons.injEq, and_true] at hc1 hc2 hc3
  obtain ⟨hB1, hLm, hH1, hW1⟩ := hc1
  obtain ⟨hB2', hC2, hH2, hW2⟩ := hc2
  obtain ⟨hB3, hC3, hH3, hW3⟩ := hc3
  rw [hccs] at hain
  simp only [List.cons.injEq, and_true] at hain
  obtain ⟨hBa, hCa, hHa, hWa⟩ := hain
  rw [haout] at hfin2
  simp only [List.cons.injEq, and_true] at hfin2
  obtain ⟨hBf, hCf, hHf, hWf⟩ := hfin2
  have hH128 : e.H = 128 := by omega
  have hW128 : e.W = 128 := by omega
  refine ⟨B, Lm, ?_, ?_, hH128, hW128, ?_, ?_, ?_⟩
  · rw [himg, hH3, hW3, hH1, hW1]
  · rw [hmsg, hB1, ← hB3]
  · rw [← hfin]
    show out.shape = _
    rw [hfout, ← hBf, ← hBa, ← hB3, ← hHf, ← hHa, ← hH1, ← hWf, ← hWa, ← hW1]
  · rw [← hfin]
    show out.dtype = img.dtype
    rw [hft, hat, hcct]
    exact ht3.symm
  · rw [← hfin]
    show out.device = img.device
    rw [hfd, had, hccd]
    exact he3.symm

@[simp] theorem toDevice_shape (t : Tensor) (d : Device) :
    (t.toDevice d).shape = t.shape := rfl

@[simp] theorem toDevice_dtype (t : Tensor) (d : Device) :
    (t.toDevice d).dtype = t.dtype := rfl

@[simp] theorem toDevice_device (t : Tensor) (d : Device) :
    (t.toDevice d).device = d := rfl

theorem attnToSemantic_some {t u : Tensor} (h : attnToSemantic t = some u) :
    ∃ B nh T1 T2, t.shape = [B, nh, T1, T2] ∧ 1 ≤ T1
      ∧ u.shape = [B, nh, 128, 128] ∧ u.dtype = t.dtype ∧ u.device = t.device := by
  unfold attnToSemantic at h
  simp only [Option.bind_eq_some] at h
  obtain ⟨a, ha, rr, hrr, hint⟩ := h
  obtain ⟨B, nh, T1, T2, hts, hT1, has, hat, had⟩ := selectClsRow_some ha
  obtain ⟨hrs, hrt, hrd, hrdata, _⟩ := reshape_some hrr
  obtain ⟨B', C', H', W', hrs2, hus, hut, hud⟩ := interpolateNearest_some hint
  rw [has] at hrs
  simp only [List.headD, List.tail] at hrs
  rw [hrs] at hrs2
  simp only [List.cons.injEq, and_true] at hrs2
  obtain ⟨hB, hC, hH, hW⟩ := hrs2
  refine ⟨B, nh, T1, T2, hts, hT1, ?_, ?_, ?_⟩
  · rw [hus, ← hB, ← hC]
  · rw [hut, hrt, hat]
  · rw [hud, hrd, had]

/-- Success facts of the strategy-B forward pass. -/
theorem forward_dino_output_props {e : Encoder} {img msg out : Tensor}
    (h : e.forward_dino_output img msg = some out) :
    ∃ B Lm, img.shape = [B, 3, e.H, e.W] ∧ msg.shape = [B, Lm]
      ∧ e.H = 128 ∧ e.W = 128
      ∧ out.shape = [B, e.final_layer.cout, e.H, e.W]
      ∧ out.dtype = img.dtype ∧ out.device = img.device := by
  unfold Encoder.forward_dino_output at h
  simp only [Option.pure_def, Option.bind_eq_bind, Option.bind_eq_some,
    Option.some.injEq] at h
  obtain ⟨fe, hfe, m, hm, lin, hlin, pre, hpre, outs, houts, proj, hproj,
    sem, hsem, em, hem, cc, hcc, a, ha, hout⟩ := h
  obtain ⟨B0, H0, W0, hpres, hpres2, hpret, hpred⟩ := FeatureExtractor_apply_some hpre
  obtain ⟨hsems, hsemt, hsemd, hsemdata, _⟩ := reshape_some hsem
  obtain ⟨B1, Lm, hmsg, hems, hemt, hemd⟩ := expandMessage_some hem
  obtain ⟨B2, C1x, C2x, C3x, Hx, Wx, hc1, hc2, hc3, hccs, hcct, hccd, ht2, ht3, he2, he3⟩ :=
    cat3_some hcc
  obtain ⟨Ba, Ha, Wa, hain, haout, hat, had⟩ := ConvBNRelu_apply_some ha
  obtain ⟨Bf, Hf, Wf, hfin2, hfout, hft, hfd⟩ := Conv1x1_apply_some hout
  rw [toDevice_shape] at hpres
  rw [hems] at hc1
  rw [hsems] at hc2
  rw [hpres] at hc3
  simp only [List.cons.injEq, and_true] at hc1 hc2 hc3
  obtain ⟨hB1, hLm, hH1, hW1⟩ := hc1
  obtain ⟨hB2', hC2, hH2, hW2⟩ := hc2
  obtain ⟨hB3, hC3, hH3, hW3⟩ := hc3
  rw [hccs] at hain
  simp only [List.cons.injEq, and_true] at hain
  obtain ⟨hBa, hCa, hHa, hWa⟩ := hain
  rw [haout] at hfin2
  simp only [List.cons.injEq, and_true] at hfin2
  obtain ⟨hBf, hCf, hHf, hWf⟩ := hfin2
  have hH128 : e.H = 128 := by omega
  have hW128 : e.W = 128 := by omega
  refine ⟨B0, Lm, ?_, ?_, hH128, hW128, ?_, ?_, ?_⟩
  · rw [hpres, hH3, hW3, hH1, hW1]
  · rw [hmsg, hB1, ← hB3]
  · rw [hfout, ← hBf, ← hBa, ← hB3, ← hHf, ← hHa, ← hH1, ← hWf, ← hWa, ← hW1]
  · rw [hft, hat, hcct]
    exact ht3.symm
  · rw [hfd, had, hccd]
    exact he3.symm

/-- Success facts of the strategy-C forward pass, including the channel
arithmetic of the fused concatenation: `message_length + numHeads + 3`
input channels must equal the fusion block's build-time width. -/
theorem forward_dino_attention_props {e : Encoder} {img msg out : Tensor}
    (h : e.forward_dino_attention img msg = some out) :
    ∃ B Lm m, e.model = some m ∧ img.shape = [B, 3, e.H, e.W] ∧ msg.shape = [B, Lm]
      ∧ e.H = 128 ∧ e.W = 128
      ∧ Lm + m.numHeads + 3 = e.after_concat_layer.cin
      ∧ out.shape = [B, e.final_layer.cout, e.H, e.W]
      ∧ out.dtype = img.dtype ∧ out.device = img.device := by
  unfold Encoder.forward_dino_attention at h
  simp only [Option.pure_def, Option.bind_eq_bind, Option.bind_eq_some,
    Option.some.injEq] at h
  obtain ⟨fe, hfe, m, hm, pre, hpre, outs, houts, attFull, hatt,
    sem, hsem, em, hem, cc, hcc, a, ha, hout⟩ := h
  obtain ⟨B0, H0, W0, hpres, hpres2, hpret, hpred⟩ := FeatureExtractor_apply_some hpre
  obtain ⟨Bd, hpix, hpool, hpoolt, hpoold, hattf⟩ := DinoBackbone_apply_some houts
  obtain ⟨hattshape, hattt, hattd⟩ := hattf attFull hatt
  obtain ⟨Bs, nh, T1, T2, hts, hT1, hsems, hsemt, hsemd⟩ := attnToSemantic_some hsem
  obtain ⟨B1, Lm, hmsg, hems, hemt, hemd⟩ := expandMessage_some hem
  obtain ⟨B2, C1x, C2x, C3x, Hx, Wx, hc1, hc2, hc3, hccs, hcct, hccd, ht2, ht3, he2, he3⟩ :=
    cat3_some hcc
  obtain ⟨Ba, Ha, Wa, hain, haout, hat, had⟩ := ConvBNRelu_apply_some ha
  obtain ⟨Bf, Hf, Wf, hfin2, hfout, hft, hfd⟩ := Conv1x1_apply_some hout
  rw [toDevice_shape] at hpres
  rw [hattshape] at hts
  simp only [List.cons.injEq, and_true] at hts
  obtain ⟨hBs, hnh, _, _⟩ := hts
  rw [hems] at hc1
  rw [hsems] at hc2
  rw [hpres] at hc3
  simp only [List.cons.injEq, and_true] at hc1 hc2 hc3
  obtain ⟨hB1, hLm, hH1, hW1⟩ := hc1
  obtain ⟨hB2', hC2, hH2, hW2⟩ := hc2
  obtain ⟨hB3, hC3, hH3, hW3⟩ := hc3
  rw [hccs] at hain
  simp only [List.cons.injEq, and_true] at hain
  obtain ⟨hBa, hCa, hHa, hWa⟩ := hain
  rw [haout] at hfin2
  simp only [List.cons.injEq, and_true] at hfin2
  obtain ⟨hBf, hCf, hHf, hWf⟩ := hfin2
  have hH128 : e.H = 128 := by omega
  have hW128 : e.W = 128 := by omega
  refine ⟨B0, Lm, m, hm, ?_, ?_, hH128, hW128, ?_, ?_, ?_, ?_⟩
  · rw [hpres, hH3, hW3, hH1, hW1]
  · rw [hmsg, hB1, ← hB3]
  · omega
  · rw [hfout, ← hBf, ← hBa, ← hB3, ← hHf, ← hHa, ← hH1, ← hWf, ← hWa, ← hW1]
  · rw [hft, hat, hcct]
    exact ht3.symm
  · rw [hfd, had, hccd]
    exact he3.symm

/-- Facts about any successfully constructed encoder, per strategy branch. -/
theorem init_ok {cfg : HiDDenConfiguration} {hub : Hub} {fresh : FreshWeights}
    {tr : List Alloc} {e : Encoder}
    (h : Encoder.init cfg hub fresh = (tr, .ok e)) :
    e.H = cfg.H ∧ e.W = cfg.W ∧ e.conv_channels = cfg.encoder_channels
      ∧ e.final_layer.cin = cfg.encoder_channels ∧ e.final_layer.cout = 3
      ∧ e.final_layer.kernel = 1
      ∧ e.conv_layers = trunkLayers cfg fresh ∧ e.training = true
      ∧ e.encoder_mode = cfg.encoder_mode
      ∧ ((cfg.encoder_mode = some "vit"
            ∧ e.after_concat_layer.cin = cfg.encoder_channels + 3 + cfg.message_length
            ∧ e.vit = some { imageH := cfg.H, imageW := cfg.W, patchSize := 32,
                             numClasses := 128 * 128 * cfg.encoder_channels,
                             dim := 1024, depth := cfg.decoder_blocks / 2,
                             heads := 16, mlpDim := 2048, dropoutRate := 1/10,
                             embDropoutRate := 1/10, weights := fresh.vit })
        ∨ (cfg.encoder_mode = some "dino-output"
            ∧ e.after_concat_layer.cin = cfg.encoder_channels + 3 + cfg.message_length
            ∧ e.model = some { hub.backbone with outputAttentions := false, training := false })
        ∨ (cfg.encoder_mode = some "dino-attention"
            ∧ e.after_concat_layer.cin = 39
            ∧ e.model = some { hub.backbone with outputAttentions := true, training := false })) := by
  rcases hmode : cfg.encoder_mode with _ | mode
  · rw [Encoder.init, hmode] at h
    simp at h
  · simp only [Encoder.init, hmode] at h
    split at h
    · rename_i hvit
      subst hvit
      split at h
      · injection h with htr hok
        injection hok with he
        subst he
        exact ⟨rfl, rfl, rfl, rfl, rfl, rfl, rfl, rfl, rfl,
          Or.inl ⟨rfl, rfl, rfl⟩⟩
      · injection h with htr hok
        injection hok
    · split at h
      · rename_i hnv hdo
        subst hdo
        injection h with htr hok
        injection hok with he
        subst he
        exact ⟨rfl, rfl, rfl, rfl, rfl, rfl, rfl, rfl, rfl,
          Or.inr (Or.inl ⟨rfl, rfl, rfl⟩)⟩
      · split at h
        · rename_i hnv hnd hda
          subst hda
          injection h with htr hok
          injection hok with he
          subst he
          exact ⟨rfl, rfl, rfl, rfl, rfl, rfl, rfl, rfl, rfl,
            Or.inr (Or.inr ⟨rfl, rfl, rfl⟩)⟩
        · injection h with htr hok
          injection hok

theorem rangeAsc_length (s n : Nat) : (rangeAsc s n).length = n := by
  induction n generalizing s with
  | zero => rfl
  | succ n ih => simp [rangeAsc, ih]

theorem rangeAsc_map_const {α : Type} (a : α) (s n : Nat) :
    (rangeAsc s n).map (fun _ => a) = List.replicate n a := by
  induction n generalizing s with
  | zero => rfl
  | succ n ih => simp only [rangeAsc, List.map_cons, List.replicate_succ, ih]

/-- The architecture signature (`cin`, `cout`) of a `ConvBNRelu` block. -/
def archOf (l : ConvBNRelu) : Nat × Nat := (l.cin, l.cout)

/-- `ConvBNRelu.apply` succeeds or fails, and shapes its output, based only
on the block's architecture and the input shape — never on weight values. -/
theorem ConvBNRelu_apply_shape_eq {L1 L2 : ConvBNRelu} {t1 t2 : Tensor}
    (hcin : L1.cin = L2.cin) (hcout : L1.cout = L2.cout)
    (hsh : t1.shape = t2.shape) :
    (L1.apply t1).map Tensor.shape = (L2.apply t2).map Tensor.shape := by
  obtain ⟨s1, dt1, dv1, da1⟩ := t1
  obtain ⟨s2, dt2, dv2, da2⟩ := t2
  replace hsh : s1 = s2 := hsh
  subst hsh
  unfold ConvBNRelu.apply
  rcases s1 with _ | ⟨B, _ | ⟨C, _ | ⟨H, _ | ⟨W, _ | rest⟩⟩⟩⟩
  all_goals dsimp only
  by_cases hC : C = L1.cin
  · rw [if_pos hC, if_pos (show C = L2.cin from hcin ▸ hC)]
    simp [hcout]
  · rw [if_neg hC, if_neg (show ¬C = L2.cin from hcin ▸ hC)]

/-- `applySeq` succeeds and shapes its result identically on two layer
stacks with the same architecture applied to same-shaped inputs. -/
theorem applySeq_shape_eq : ∀ {ls1 ls2 : List ConvBNRelu} {t1 t2 : Tensor},
    ls1.map archOf = ls2.map archOf → t1.shape = t2.shape →
    (applySeq ls1 t1).map Tensor.shape = (applySeq ls2 t2).map Tensor.shape := by
  intro ls1
  induction ls1 with
  | nil =>
    intro ls2 t1 t2 harch hsh
    rcases ls2 with _ | ⟨L2, ls2⟩
    · simp [applySeq, hsh]
    · simp at harch
  | cons L1 ls1 ih =>
    intro ls2 t1 t2 harch hsh
    rcases ls2 with _ | ⟨L2, ls2⟩
    · simp at harch
    · simp only [List.map_cons, List.cons.injEq, archOf, Prod.mk.injEq] at harch
      obtain ⟨⟨hcin, hcout⟩, htail⟩ := harch
      simp only [applySeq]
      have happ := ConvBNRelu_apply_shape_eq hcin hcout hsh
      cases h1 : L1.apply t1 with
      | none =>
        rw [h1] at happ
        cases h2 : L2.apply t2 with
        | none => rfl
        | some u2 => rw [h2] at happ; simp at happ
      | some u1 =>
        rw [h1] at happ
        cases h2 : L2.apply t2 with
        | none => rw [h2] at happ; simp at happ
        | some u2 =>
          rw [h2] at happ
          simp only [Option.map_some', Option.some.injEq] at happ
          simp only [Option.some_bind]
          exact ih htail happ

/-- In evaluation mode the ViT output is independent of the dropout stream
and its position, and no draws are consumed. -/
theorem ViT_apply_eval (v : ViT) (σ σ2 : Nat → ℚ) (p p2 : Nat) (t : Tensor) :
    v.apply false σ p t = (v.apply false σ2 p2 t).map fun r => (r.1, p) := by
  unfold ViT.apply
  split
  · rename_i B H W heq
    by_cases hc : H = v.imageH ∧ W = v.imageW
    · rw [if_pos hc, if_pos hc]
      simp
    · rw [if_neg hc, if_neg hc]
      rfl
  · rfl

/-! ## Claims -/

/-- C2 (amended): constructing with `encoder_mode` absent raises a
`ValueError` before any weight allocation; constructing with an
unrecognised string raises a `ValueError` with no strategy-specific weights
allocated, but only after the trunk and final-conv allocations
(`trunkAllocs`) have been performed. -/
theorem C2_validation (cfg : HiDDenConfiguration) (hub : Hub) (fresh : FreshWeights) :
    (cfg.encoder_mode = none →
      Encoder.init cfg hub fresh = ([], .error .valueErrorMissingMode))
    ∧ (∀ s, cfg.encoder_mode = some s →
        s ≠ "vit" → s ≠ "dino-output" → s ≠ "dino-attention" →
        Encoder.init cfg hub fresh = (trunkAllocs cfg, .error (.valueErrorInvalidMode s))) := by
  constructor
  · intro h
    rw [Encoder.init, h]
  · intro s hs h1 h2 h3
    rw [Encoder.init, hs]
    simp [h1, h2, h3]

/-- Witness for C2: the missing-mode configuration fails with no
allocations at all. -/
theorem C2_validation_witness :
    Encoder.init cfgNone hub0 fresh0 = ([], .error .valueErrorMissingMode) :=
  (C2_validation cfgNone hub0 fresh0).1 rfl

/-- Counterexample to C2 as stated: with `encoder_mode = "foo"` the
`ValueError` is raised, and no strategy-specific weights exist, but the
trunk and the final 1×1 conv have already been allocated — the error does
not precede all weight allocation. -/
theorem C2_counterexample :
    Encoder.init cfgFoo hub0 fresh0
        = (trunkAllocs cfgFoo, .error (.valueErrorInvalidMode "foo"))
      ∧ trunkAllocs cfgFoo ≠ [] := by
  constructor
  · rfl
  · simp [trunkAllocs]

/-- C4: for every strategy, a successful forward call forces the configured
resolution to be exactly 128×128, because the semantic representation is
produced at fixed spatial size 128×128 while the broadcast message and the
image enter the channel concatenation at the configured `H × W`. -/
theorem C4_spatial_constraint {cfg : HiDDenConfiguration} {hub : Hub}
    {fresh : FreshWeights} {tr : List Alloc} {e : Encoder} {σ : Nat → ℚ}
    {pos : Nat} {img msg : Tensor}
    (hinit : Encoder.init cfg hub fresh = (tr, .ok e))
    (hfwd : (e.forward σ pos img msg).isSome) :
    cfg.H = 128 ∧ cfg.W = 128 := by
  obtain ⟨r, hr⟩ := Option.isSome_iff_exists.mp hfwd
  obtain ⟨hH, hW, _⟩ := init_ok hinit
  unfold Encoder.forward at hr
  split at hr
  · obtain ⟨B, Lm, _, _, h128H, h128W, _⟩ := forward_vit_props hr
    omega
  · split at hr
    · rw [Option.map_eq_some'] at hr
      obtain ⟨out, hout, _⟩ := hr
      obtain ⟨B, Lm, _, _, h128H, h128W, _⟩ := forward_dino_output_props hout
      omega
    · split at hr
      · rw [Option.map_eq_some'] at hr
        obtain ⟨out, hout, _⟩ := hr
        obtain ⟨B, Lm, m, _, _, _, h128H, h128W, _⟩ := forward_dino_attention_props hout
        omega
      · cases hr

/-- Witness for C4: a successful strategy-A forward at the intended
configuration. -/
theorem C4_spatial_constraint_witness : cfg128.H = 128 ∧ cfg128.W = 128 :=
  @C4_spatial_constraint cfg128 hub0 fresh0 (Encoder.init cfg128 hub0 fresh0).1
    E128 sigmaHalf 0 img128 msg128 rfl (by rfl)

/-- C6: a strategy-A encoder's vision transformer is built with patch size
32, an output vector of length `128 * 128 * conv_channels`, and depth
`decoder_blocks / 2`. -/
theorem C6_vit_construction {cfg : HiDDenConfiguration} {hub : Hub}
    {fresh : FreshWeights} {tr : List Alloc} {e : Encoder}
    (hinit : Encoder.init cfg hub fresh = (tr, .ok e))
    (hmode : cfg.encoder_mode = some "vit") :
    e.vit.map (fun v => (v.patchSize, v.numClasses, v.depth))
      = some (32, 128 * 128 * cfg.encoder_channels, cfg.decoder_blocks / 2) := by
  obtain ⟨_, _, _, _, _, _, _, _, _, hdis⟩ := init_ok hinit
  rcases hdis with ⟨_, _, hvit⟩ | ⟨hdo, _⟩ | ⟨hda, _⟩
  · rw [hvit]
    rfl
  · rw [hmode] at hdo
    simp at hdo
  · rw [hmode] at hda
    simp at hda

/-- Witness for C6 at the concrete strategy-A configuration. -/
theorem C6_vit_construction_witness :
    E128.vit.map (fun v => (v.patchSize, v.numClasses, v.depth))
      = some (32, 128 * 128 * cfg128.encoder_channels, cfg128.decoder_blocks / 2) :=
  @C6_vit_construction cfg128 hub0 fresh0 (Encoder.init cfg128 hub0 fresh0).1
    E128 rfl rfl

/-- C10 (amended): for every configuration with at least one trunk block,
construction builds exactly `encoder_blocks` trunk stages — `3 →
conv_channels` then `conv_channels → conv_channels` — plus a final 1×1
convolution `conv_channels → 3`. -/
theorem C10_trunk_structure {cfg : HiDDenConfiguration} {hub : Hub}
    {fresh : FreshWeights} {tr : List Alloc} {e : Encoder}
    (hinit : Encoder.init cfg hub fresh = (tr, .ok e))
    (hblocks : 1 ≤ cfg.encoder_blocks) :
    e.conv_layers.map archOf
        = (3, cfg.encoder_channels)
            :: List.replicate (cfg.encoder_blocks - 1)
                (cfg.encoder_channels, cfg.encoder_channels)
      ∧ e.conv_layers.length = cfg.encoder_blocks
      ∧ e.final_layer.cin = cfg.encoder_channels ∧ e.final_layer.cout = 3
      ∧ e.final_layer.kernel = 1 := by
  obtain ⟨_, _, _, hfc, hfo, hfk, hcl, _⟩ := init_ok hinit
  refine ⟨?_, ?_, hfc, hfo, hfk⟩
  · rw [hcl]
    unfold trunkLayers
    simp only [List.map_cons, List.map_map]
    congr 1
    have : (archOf ∘ fun k =>
        ({ cin := cfg.encoder_channels, cout := cfg.encoder_channels,
           weights := fresh.conv k } : ConvBNRelu))
        = fun _ => (cfg.encoder_channels, cfg.encoder_channels) := rfl
    rw [this, rangeAsc_map_const]
  · rw [hcl]
    unfold trunkLayers
    simp only [List.length_cons, List.length_map, rangeAsc_length]
    omega

/-- Witness for C10 at a two-block configuration. -/
theorem C10_trunk_structure_witness :
    (getOk (Encoder.init { cfg128 with encoder_blocks := 2 } hub0 fresh0).2).conv_layers.map archOf
        = (3, 1) :: List.replicate 1 (1, 1) := by
  have h := @C10_trunk_structure { cfg128 with encoder_blocks := 2 } hub0 fresh0
    (Encoder.init { cfg128 with encoder_blocks := 2 } hub0 fresh0).1
    (getOk (Encoder.init { cfg128 with encoder_blocks := 2 } hub0 fresh0).2)
    rfl (by decide)
  exact h.1

/-- Counterexample to C10 as stated: with `encoder_blocks = 0` the loop
bound `encoder_blocks - 1` clamps to zero, so one trunk stage is still
built — not "exactly `encoder_blocks` stages". -/
theorem C10_counterexample :
    cfgB0.encoder_blocks = 0
      ∧ (getOk (Encoder.init cfgB0 hub0 fresh0).2).conv_layers.length = 1
      ∧ (getOk (Encoder.init cfgB0 hub0 fresh0).2).conv_layers.length
          ≠ cfgB0.encoder_blocks := by
  refine ⟨rfl, rfl, ?_⟩
  intro h
  simp [cfgB0, cfg128, getOk, Encoder.init, trunkLayers] at h

/-- C8: the spatially broadcast message tensor holds, at every spatial
location of every batch item, exactly the original message entry. -/
theorem C8_message_broadcast {msg : Tensor} {B L H W b l i j : Nat}
    (hsh : msg.shape = [B, L]) (hb : b < B) (hl : l < L) (hi : i < H) (hj : j < W) :
    (expandMessage msg H W).map (fun em => em.val4 b l i j)
      = some (msg.val2 b l) := by
  unfold expandMessage
  rw [hsh]
  simp only [Option.map_some', Option.some.injEq]
  unfold Tensor.val4
  simp only
  exact mk4_val _ hl hi hj

/-- Witness for C8 at a concrete message and location. -/
theorem C8_message_broadcast_witness :
    (expandMessage msgDA 4 4).map (fun em => em.val4 0 7 2 3)
      = some (msgDA.val2 0 7) :=
  C8_message_broadcast (B := 1) (L := 30) rfl (by decide) (by decide)
    (by decide) (by decide)

/-- C1 (amended): whenever `Encoder.forward` succeeds on an image of shape
`(B, 3, H, W)` and a message of shape `(B, message_length)`, the output has
shape `(B, 3, H, W)` with the input image's dtype and device.  (It does not
succeed for every `H, W`: see the counterexample, which fails at the fusion
concat for `H = W = 32`.) -/
theorem C1_output_contract {cfg : HiDDenConfiguration} {hub : Hub}
    {fresh : FreshWeights} {tr : List Alloc} {e : Encoder} {σ : Nat → ℚ}
    {pos : Nat} {img msg : Tensor} {B : Nat}
    (hinit : Encoder.init cfg hub fresh = (tr, .ok e))
    (himg : img.shape = [B, 3, cfg.H, cfg.W])
    (hmsg : msg.shape = [B, cfg.message_length])
    (hfwd : (e.forward σ pos img msg).isSome) :
    (e.forward σ pos img msg).map (fun r => (r.1.shape, r.1.dtype, r.1.device))
      = some ([B, 3, cfg.H, cfg.W], img.dtype, img.device) := by
  obtain ⟨r, hr⟩ := Option.isSome_iff_exists.mp hfwd
  obtain ⟨hH, hW, _, _, hfcout, _⟩ := init_ok hinit
  have key : r.1.shape = [B, 3, cfg.H, cfg.W] ∧ r.1.dtype = img.dtype
      ∧ r.1.device = img.device := by
    unfold Encoder.forward at hr
    split at hr
    · obtain ⟨B', Lm, himg', hmsg', _, _, hshape, hdt, hdv⟩ := forward_vit_props hr
      rw [hH, hW] at himg'
      rw [himg] at himg'
      simp only [List.cons.injEq, and_true] at himg'
      obtain ⟨hB, _⟩ := himg'
      refine ⟨?_, hdt, hdv⟩
      rw [hshape, hfcout, hH, hW]
    · split at hr
      · rw [Option.map_eq_some'] at hr
        obtain ⟨out, hout, hro⟩ := hr
        have h1 : r.1 = out := by rw [← hro]
        obtain ⟨B', Lm, himg', hmsg', _, _, hshape, hdt, hdv⟩ :=
          forward_dino_output_props hout
        rw [hH, hW] at himg'
        rw [himg] at himg'
        simp only [List.cons.injEq, and_true] at himg'
        obtain ⟨hB, _⟩ := himg'
        refine ⟨?_, by rw [h1, hdt], by rw [h1, hdv]⟩
        rw [h1, hshape, hfcout, hH, hW]
      · split at hr
        · rw [Option.map_eq_some'] at hr
          obtain ⟨out, hout, hro⟩ := hr
          have h1 : r.1 = out := by rw [← hro]
          obtain ⟨B', Lm, m, _, himg', hmsg', _, _, _, hshape, hdt, hdv⟩ :=
            forward_dino_attention_props hout
          rw [hH, hW] at himg'
          rw [himg] at himg'
          simp only [List.cons.injEq, and_true] at himg'
          obtain ⟨hB, _⟩ := himg'
          refine ⟨?_, by rw [h1, hdt], by rw [h1, hdv]⟩
          rw [h1, hshape, hfcout, hH, hW]
        · cases hr
  rw [hr]
  simp only [Option.map_some', Option.some.injEq, Prod.mk.injEq]
  exact ⟨key.1, key.2.1, key.2.2⟩

/-- Witness for C1 at the concrete strategy-A configuration. -/
theorem C1_output_contract_witness :
    (E128.forward sigmaHalf 0 img128 msg128).map
        (fun r => (r.1.shape, r.1.dtype, r.1.device))
      = some ([1, 3, cfg128.H, cfg128.W], img128.dtype, img128.device) :=
  @C1_output_contract cfg128 hub0 fresh0 (Encoder.init cfg128 hub0 fresh0).1
    E128 sigmaHalf 0 img128 msg128 1 rfl rfl rfl (by rfl)

/-- Counterexample to C1 as stated: a validly constructed strategy-A
encoder at resolution 32×32 (divisible by the patch size) returns no output
at all — the fusion concat rejects the 128×128 semantic map against the
32×32 message/image grids — so forward does not return a `(B, 3, H, W)`
tensor for every `H, W`. -/
theorem C1_counterexample :
    (Encoder.init cfg32 hub0 fresh0).2.toOption.map
        (fun e => e.forward sigmaHalf 0 img32 msg128)
      = some none := by
  rfl

/-- C3: in a constructed `dino-attention` encoder, the fused concatenation
carries `message_length + numHeads + 3` channels, and
`forward_dino_attention` succeeds only when that sum equals the fusion
block's build-time input width, the literal 39. -/
theorem C3_fusion_channels {cfg : HiDDenConfiguration} {hub : Hub}
    {fresh : FreshWeights} {tr : List Alloc} {e : Encoder}
    {img msg : Tensor} {B : Nat}
    (hinit : Encoder.init cfg hub fresh = (tr, .ok e))
    (hmode : cfg.encoder_mode = some "dino-attention")
    (hmsg : msg.shape = [B, cfg.message_length])
    (hfwd : (e.forward_dino_attention img msg).isSome) :
    e.after_concat_layer.cin = cfg.message_length + hub.backbone.numHeads + 3
      ∧ e.after_concat_layer.cin = 39 := by
  obtain ⟨out, hout⟩ := Option.isSome_iff_exists.mp hfwd
  obtain ⟨B', Lm, m, hmodel, himg', hmsg', _, _, hchan, _⟩ :=
    forward_dino_attention_props hout
  obtain ⟨_, _, _, _, _, _, _, _, _, hdis⟩ := init_ok hinit
  rcases hdis with ⟨hv, _⟩ | ⟨hdo, _⟩ | ⟨hda, hcin39, hmdl⟩
  · rw [hmode] at hv
    simp at hv
  · rw [hmode] at hdo
    simp at hdo
  · have hm : m = { hub.backbone with outputAttentions := true, training := false } := by
      rw [hmodel] at hmdl
      exact Option.some.inj hmdl
    have hLm : Lm = cfg.message_length := by
      rw [hmsg] at hmsg'
      simp only [List.cons.injEq, and_true] at hmsg'
      exact hmsg'.2.symm
    constructor
    · rw [← hchan, hLm, hm]
    · exact hcin39

/-- Witness for C3: a successful strategy-C forward with a 30-value
message and a 6-head backbone, for which 30 + 6 + 3 = 39. -/
theorem C3_fusion_channels_witness :
    EDA.after_concat_layer.cin
        = cfgDA.message_length + hub0.backbone.numHeads + 3
      ∧ EDA.after_concat_layer.cin = 39 :=
  @C3_fusion_channels cfgDA hub0 fresh0 (Encoder.init cfgDA hub0 fresh0).1
    EDA imgDA msgDA 1 rfl rfl rfl (by rfl)

/-- Strategy-A forward output in evaluation mode is independent of the
dropout stream and its position. -/
theorem forward_vit_eval_fst {e : Encoder} (he : e.training = false)
    (σ σ2 : Nat → ℚ) (p p2 : Nat) (img msg : Tensor) :
    (e.forward_vit σ p img msg).map Prod.fst
      = (e.forward_vit σ2 p2 img msg).map Prod.fst := by
  unfold Encoder.forward_vit
  cases hv : e.vit with
  | none => rfl
  | some v =>
    simp only [Option.bind_eq_bind, Option.some_bind]
    rw [he, ViT_apply_eval v σ σ2 p p2 img]
    cases hr : v.apply false σ2 p2 img with
    | none => rfl
    | some rr =>
      simp only [Option.map_some', Option.some_bind, Option.map_map]
      rfl

/-- Strategy-A forward in evaluation mode consumes no dropout draws: the
returned stream position is the argument position. -/
theorem forward_vit_eval_snd {e : Encoder} (he : e.training = false)
    (σ : Nat → ℚ) (p : Nat) (img msg : Tensor) :
    (e.forward_vit σ p img msg).map Prod.snd
      = (e.forward_vit σ p img msg).map fun _ => p := by
  unfold Encoder.forward_vit
  cases hv : e.vit with
  | none => rfl
  | some v =>
    simp only [Option.bind_eq_bind, Option.some_bind]
    rw [he]
    cases hr : v.apply false σ p img with
    | none => rfl
    | some rr =>
      have heq := ViT_apply_eval v σ σ p p img
      rw [hr] at heq
      simp only [Option.map_some'] at heq
      have hp : rr.2 = p := by
        have := Option.some.inj heq
        rw [this]
      simp only [Option.some_bind, Option.map_map, hp]
      rfl

/-- C5 (amended): with the encoder in evaluation mode — required because
strategy A's ViT is built with active dropout (rate 0.1) and the encoder is
never switched to evaluation mode by construction — the forward output is
independent of the dropout randomness stream and its position (so repeated
calls with identical inputs agree), and the stream position is returned
unchanged (no mutable randomness state is consumed across calls). -/
theorem C5_eval_determinism {e : Encoder} (σ σ2 : Nat → ℚ) (p p2 : Nat)
    (img msg : Tensor) (he : e.training = false) :
    (e.forward σ p img msg).map Prod.fst
        = (e.forward σ2 p2 img msg).map Prod.fst
      ∧ (e.forward σ p img msg).map Prod.snd
        = (e.forward σ p img msg).map fun _ => p := by
  by_cases h1 : e.encoder_mode = some "vit"
  · simp only [Encoder.forward, if_pos h1]
    exact ⟨forward_vit_eval_fst he σ σ2 p p2 img msg,
      forward_vit_eval_snd he σ p img msg⟩
  · by_cases h2 : e.encoder_mode = some "dino-output"
    · simp only [Encoder.forward, if_neg h1, if_pos h2]
      constructor
      · cases hfd : e.forward_dino_output img msg <;> simp
      · cases hfd : e.forward_dino_output img msg <;> simp
    · by_cases h3 : e.encoder_mode = some "dino-attention"
      · simp only [Encoder.forward, if_neg h1, if_neg h2, if_pos h3]
        constructor
        · cases hfd : e.forward_dino_attention img msg <;> simp
        · cases hfd : e.forward_dino_attention img msg <;> simp
      · simp [Encoder.forward, if_neg h1, if_neg h2, if_neg h3]

/-- The strategy-A encoder switched to evaluation mode (`model.eval()`). -/
def E5eval : Encoder := { E5 with training := false }

/-- Witness for C5 at a concrete evaluation-mode encoder and two unrelated
dropout streams and positions. -/
theorem C5_eval_determinism_witness :
    (E5eval.forward sigmaDrop 0 img128 msg128).map Prod.fst
        = (E5eval.forward sigmaHalf 7 img128 msg128).map Prod.fst
      ∧ (E5eval.forward sigmaDrop 0 img128 msg128).map Prod.snd
        = (E5eval.forward sigmaDrop 0 img128 msg128).map fun _ => 0 :=
  C5_eval_determinism sigmaDrop sigmaHalf 0 7 img128 msg128 rfl

/-- Counterexample to C5 as stated: the freshly constructed strategy-A
encoder is in training mode, so its ViT dropout is active; with the dropout
stream `sigmaDrop`, two successive forward calls on identical inputs both
succeed yet return different outputs (output pixel (0,0,0,0) is 4 on the
first call and 46/9 on the second). -/
theorem C5_counterexample :
    run1.isSome = true ∧ run2.isSome = true
      ∧ (run1.map fun r => r.1.val4 0 0 0 0)
          ≠ (run2.map fun r => r.1.val4 0 0 0 0) := by
  refine ⟨by with_unfolding_all rfl, by with_unfolding_all rfl, ?_⟩
  have h1 : (run1.map fun r => r.1.val4 0 0 0 0) = some 4 := by
    with_unfolding_all rfl
  have h2 : (run2.map fun r => r.1.val4 0 0 0 0) = some (46/9) := by
    with_unfolding_all rfl
  rw [h1, h2]
  intro hcontra
  have h3 := Option.some.inj hcontra
  norm_num at h3

/-- The semantic representation stated in the spec's words (§4.4): for
every head, the class-token-to-patch attention row with the class token's
self-attention entry excluded (hence the `1 +` offset), arranged on a 28×28
grid and nearest-upsampled to 128×128; channel count is the head count. -/
def attnSemanticSpec (att : Tensor) (B nh : Nat) : Tensor :=
  { shape := [B, nh, 128, 128], dtype := att.dtype, device := att.device,
    data := mk4 nh 128 128 fun b h i j =>
      att.val4 b h 0 (1 + ((i * 28 / 128) * 28 + j * 28 / 128)) }

theorem div_bound_28 {i : Nat} (hi : i < 128) : i * 28 / 128 < 28 := by
  rw [Nat.div_lt_iff_lt_mul (by norm_num)]
  omega

/-- The attention pipeline of source lines 90–92 computes exactly the
spec's semantic representation. -/
theorem attnToSemantic_eq {att : Tensor} {B nh : Nat}
    (hsh : att.shape = [B, nh, 785, 785]) (hnh : 0 < nh) :
    attnToSemantic att = some (attnSemanticSpec att B nh) := by
  unfold attnToSemantic
  have hsel : selectClsRow att = some
      { shape := [B, nh, 784], dtype := att.dtype, device := att.device,
        data := mk3 nh 784 fun b h k => att.val4 b h 0 (k + 1) } := by
    unfold selectClsRow
    rw [hsh]
    norm_num
  rw [hsel]
  simp only [Option.some_bind, List.tail_cons, List.headD_cons]
  have hre : (⟨[B, nh, 784], att.dtype, att.device,
        mk3 nh 784 fun b h k => att.val4 b h 0 (k + 1)⟩ : Tensor).reshape
        [B, nh, 28, 28]
      = some ⟨[B, nh, 28, 28], att.dtype, att.device,
          mk3 nh 784 fun b h k => att.val4 b h 0 (k + 1)⟩ := by
    unfold Tensor.reshape
    rw [if_pos]
    norm_num
  rw [hre]
  simp only [Option.some_bind]
  unfold interpolateNearest
  dsimp only
  congr 1
  unfold attnSemanticSpec
  congr 1
  apply mk4_congr hnh (by norm_num) (by norm_num)
  intro b c i j hc hi hj
  have hx : i * 28 / 128 < 28 := div_bound_28 hi
  have hy : j * 28 / 128 < 28 := div_bound_28 hj
  unfold Tensor.val4
  dsimp only
  have hidx : ((b * nh + c) * 28 + i * 28 / 128) * 28 + j * 28 / 128
      = (b * nh + c) * 784 + ((i * 28 / 128) * 28 + j * 28 / 128) := by ring
  rw [hidx]
  have hk : (i * 28 / 128) * 28 + j * 28 / 128 < 784 := by
    calc (i * 28 / 128) * 28 + j * 28 / 128 < (i * 28 / 128) * 28 + 28 := by omega
      _ = ((i * 28 / 128) + 1) * 28 := by ring
      _ ≤ 28 * 28 := by
          have : i * 28 / 128 + 1 ≤ 28 := hx
          exact Nat.mul_le_mul_right 28 this
      _ = 784 := by norm_num
  rw [mk3_val _ hc hk]
  rw [Nat.add_comm ((i * 28 / 128) * 28 + j * 28 / 128) 1]

/-- C7: for a backbone whose last-layer attention spans 785 tokens (class
token + 28×28 patches), the strategy-C semantic representation equals the
spec's description — per head, the class-token row without its
self-attention entry, on a 28×28 grid upsampled to 128×128 — and its
channel count is the backbone's head count, independent of the batch size
`B`. -/
theorem C7_attention_semantic {m : DinoBackbone} {pix : Tensor}
    {outs : DinoOutputs} {att : Tensor} {B : Nat}
    (hpix : pix.shape = [B, 3, 224, 224])
    (happ : m.apply pix = some outs)
    (hatt : outs.attentions = some att)
    (hT : m.numTokens = 785) (hnh : 0 < m.numHeads) :
    attnToSemantic att = some (attnSemanticSpec att B m.numHeads) := by
  obtain ⟨B', hpix', _, _, _, hattf⟩ := DinoBackbone_apply_some happ
  obtain ⟨hattshape, _, _⟩ := hattf att hatt
  have hB : B' = B := by
    rw [hpix] at hpix'
    simp only [List.cons.injEq, and_true] at hpix'
    exact hpix'.symm
  rw [hT, hB] at hattshape
  exact attnToSemantic_eq hattshape hnh

/-- The `dino-vits8`-shaped backbone with attention output enabled. -/
def dinoB : DinoBackbone := { hub0.backbone with outputAttentions := true }

def pix224 : Tensor :=
  { shape := [2, 3, 224, 224], dtype := .float32, device := .cuda, data := fun _ => 0 }

/-- The modelled backbone outputs on `pix224`. -/
def outs224 : DinoOutputs :=
  { poolerOutput := { shape := [2, 384], dtype := .float32, device := .cuda,
                      data := mk2 384 fun b k =>
                        dinoB.weights.pool k * pix224.batchSum b },
    attentions := some { shape := [2, 6, 785, 785], dtype := .float32,
                         device := .cuda,
                         data := mk4 6 785 785 fun b h i j =>
                           dinoB.weights.att h i j * pix224.batchSum b } }

def att224 : Tensor :=
  { shape := [2, 6, 785, 785], dtype := .float32, device := .cuda,
    data := mk4 6 785 785 fun b h i j => dinoB.weights.att h i j * pix224.batchSum b }

/-- Witness for C7 at a batch of two 224×224 inputs and a 6-head backbone. -/
theorem C7_attention_semantic_witness :
    attnToSemantic att224 = some (attnSemanticSpec att224 2 dinoB.numHeads) :=
  @C7_attention_semantic dinoB pix224 outs224 att224 2
    rfl rfl rfl rfl (by decide)

/-- C9: the strategy-A forward pass computes the trunk encoding
`conv_layers(image)` but never uses it — forward output is identical for
any two weight settings of the trunk layers (same architecture, arbitrary
weight values). -/
theorem C9_conv_trunk_unused {e : Encoder} {ls1 ls2 : List ConvBNRelu}
    {σ : Nat → ℚ} {pos : Nat} {img msg : Tensor}
    (harch : ls1.map archOf = ls2.map archOf) :
    Encoder.forward_vit { e with conv_layers := ls1 } σ pos img msg
      = Encoder.forward_vit { e with conv_layers := ls2 } σ pos img msg := by
  unfold Encoder.forward_vit Encoder.vit_fusion
  obtain ⟨eH, eW, ecc, enb, eel, eem, ecl, efl, eacl, evt, efe, emd, eln, etr⟩ := e
  dsimp only
  cases hv : evt with
  | none => rfl
  | some v =>
    simp only [Option.bind_eq_bind, Option.some_bind]
    cases hr : v.apply etr σ pos img with
    | none => rfl
    | some rv =>
      simp only [Option.some_bind]
      cases hsem : rv.1.reshape [img.shape.headD 0, ecc, 128, 128] with
      | none => rfl
      | some sem =>
        simp only [Option.some_bind]
        cases hem : expandMessage msg eH eW with
        | none => rfl
        | some em' =>
          simp only [Option.some_bind]
          have happ := applySeq_shape_eq harch (rfl : img.shape = img.shape)
          cases h1 : applySeq ls1 img with
          | none =>
            rw [h1] at happ
            cases h2 : applySeq ls2 img with
            | none => rfl
            | some u2 => rw [h2] at happ; simp at happ
          | some u1 =>
            rw [h1] at happ
            cases h2 : applySeq ls2 img with
            | none => rw [h2] at happ; simp at happ
            | some u2 => simp only [Option.some_bind]

/-- Witness for C9: the all-zero and all-one trunk weight settings give the
same forward result on the concrete strategy-A encoder. -/
theorem C9_conv_trunk_unused_witness :
    Encoder.forward_vit { E128 with conv_layers := trunkLayers cfg128 fresh0 }
        sigmaHalf 0 img128 msg128
      = Encoder.forward_vit { E128 with conv_layers := trunkLayers cfg128 fresh1 }
        sigmaHalf 0 img128 msg128 :=
  C9_conv_trunk_unused (by decide)
